import Mathlib

/-!
Verification of the period-resolution and metrics-aggregation engine of the
marketing-report worker (`src/worker/src/triplewhale.ts`, `metrics.ts`,
`formatting.ts`, `shops.ts` and the country-metrics module).

The TypeScript code is shallowly embedded: JS `number` values that carry
monetary amounts and ratios become `ℚ`; calendar arithmetic performed through
the host `Date` API is embedded by an explicit proleptic-Gregorian model
(`CDate`, `dayNumber`, `addDays`, `jsMakeDate`) that follows the ECMA-262
semantics of `Date.UTC` / `new Date(y, m, d)` / `setUTCDate`, including the
two-digit-year remapping (years 0–99 are interpreted as 1900–1999).
-/

namespace MarketingBot

/-- A calendar date as the host `Date` exposes it: a year, a 1-indexed month
and a 1-indexed day of month. -/
structure CDate where
  year : ℤ
  month : ℤ
  day : ℤ
  deriving DecidableEq, Repr

/-- Gregorian leap-year rule (as implemented by the host `Date`). -/
def isLeap (y : ℤ) : Prop := (y % 4 = 0 ∧ y % 100 ≠ 0) ∨ y % 400 = 0

instance (y : ℤ) : Decidable (isLeap y) := by unfold isLeap; infer_instance

/-- One extra day in leap years. -/
def leapDays (y : ℤ) : ℤ := if isLeap y then 1 else 0

/-- Number of days of month `m` (1-indexed) of year `y`. -/
def daysInMonth (y m : ℤ) : ℤ :=
  if m = 2 then 28 + leapDays y
  else if m = 4 ∨ m = 6 ∨ m = 9 ∨ m = 11 then 30
  else 31

/-- Days of year `y` that precede month `m` (1-indexed). -/
def monthOffset (y m : ℤ) : ℤ :=
  if m = 1 then 0
  else if m = 2 then 31
  else if m = 3 then 59 + leapDays y
  else if m = 4 then 90 + leapDays y
  else if m = 5 then 120 + leapDays y
  else if m = 6 then 151 + leapDays y
  else if m = 7 then 181 + leapDays y
  else if m = 8 then 212 + leapDays y
  else if m = 9 then 243 + leapDays y
  else if m = 10 then 273 + leapDays y
  else if m = 11 then 304 + leapDays y
  else 334 + leapDays y

/-- A structurally valid calendar date. -/
def Valid (d : CDate) : Prop :=
  1 ≤ d.month ∧ d.month ≤ 12 ∧ 1 ≤ d.day ∧ d.day ≤ daysInMonth d.year d.month

instance (d : CDate) : Decidable (Valid d) := by unfold Valid; infer_instance

/-- Days in years `0, 1, …, y-1` of the proleptic Gregorian calendar
(day count from 0000-01-01, which this model uses as its epoch). -/
def daysToYear (y : ℤ) : ℤ := 365 * y + (y + 3) / 4 - (y + 99) / 100 + (y + 399) / 400

/-- Linear day number of a date (0000-01-01 ↦ 0). `Date` stores exactly this
quantity (scaled by 86 400 000 ms and shifted to the 1970 epoch). -/
def dayNumber (d : CDate) : ℤ := daysToYear d.year + monthOffset d.year d.month + d.day - 1

/-- Successor date. -/
def nextDay (d : CDate) : CDate :=
  if d.day < daysInMonth d.year d.month then ⟨d.year, d.month, d.day + 1⟩
  else if d.month < 12 then ⟨d.year, d.month + 1, 1⟩
  else ⟨d.year + 1, 1, 1⟩

/-- Predecessor date. -/
def prevDay (d : CDate) : CDate :=
  if 1 < d.day then ⟨d.year, d.month, d.day - 1⟩
  else if 1 < d.month then ⟨d.year, d.month - 1, daysInMonth d.year (d.month - 1)⟩
  else ⟨d.year - 1, 12, 31⟩

/-- Iterated successor. -/
def addF (d : CDate) : ℕ → CDate
  | 0 => d
  | k + 1 => addF (nextDay d) k

/-- Iterated predecessor. -/
def addB (d : CDate) : ℕ → CDate
  | 0 => d
  | k + 1 => addB (prevDay d) k

/-- Shift a date by `k` days: the normalization performed by
`setUTCDate(getUTCDate() + k)` and by out-of-range day arguments of
`Date.UTC` / `new Date(y, m, day)`. -/
def addDays (d : CDate) (k : ℤ) : CDate :=
  if 0 ≤ k then addF d k.toNat else addB d (-k).toNat

/-- ECMA-262 `MakeFullYear`: constructor year arguments 0–99 denote 1900–1999. -/
def jsYear (y : ℤ) : ℤ := if 0 ≤ y ∧ y ≤ 99 then 1900 + y else y

/-- The date produced by `Date.UTC(year, monthIndex, day)` (and by the local
`new Date(year, monthIndex, day)` constructor): the two-digit-year remapping,
floor-normalization of the 0-indexed month into the year, then day-offset
normalization from day 1 of that month. -/
def jsMakeDate (year monthIndex day : ℤ) : CDate :=
  let y0 : ℤ := jsYear year
  let ym : ℤ := y0 * 12 + monthIndex
  let m : ℤ := (ym % 12 + 12) % 12
  addDays ⟨(ym - m) / 12, m + 1, 1⟩ (day - 1)

/-- JS `getUTCDay()` / `getDay()`: day of week, 0 = Sunday. -/
def jsDow (d : CDate) : ℤ := (dayNumber d + 6) % 7

/-- `Math.ceil(n / q)` for an integer `n` and positive integer `q`. -/
def ceilDiv (n q : ℤ) : ℤ := -(-n / q)

/-- Embedding of `getWeekNumber` (`triplewhale.ts`): rebuild the date through
`Date.UTC`, shift to the Thursday of its ISO week with `setUTCDate`, and count
weeks from January 1 of the Thursday's year (itself built through `Date.UTC`,
hence subject to the two-digit-year remapping). -/
def getWeekNumber (date : CDate) : ℤ :=
  let d := jsMakeDate date.year (date.month - 1) date.day
  let dayNum := if jsDow d = 0 then 7 else jsDow d
  let t := addDays d (4 - dayNum)
  let yearStart := jsMakeDate t.year 0 1
  ceilDiv (dayNumber t - dayNumber yearStart + 1) 7

/-- JS `String(n).padStart(2, '0')` for the (nonnegative) month/day fields. -/
def pad2 (n : ℤ) : String := if n < 10 then "0" ++ toString n else toString n

/-- Embedding of `formatLocalDate` (`triplewhale.ts`): `YYYY-MM-DD`. -/
def formatLocalDate (d : CDate) : String :=
  toString d.year ++ "-" ++ pad2 d.month ++ "-" ++ pad2 d.day

/-- Embedding of `getMonthPeriod(month, year)` (`triplewhale.ts`): start is
`new Date(year, month, 1)`, end is `new Date(year, month + 1, 0)`, both
formatted with `formatLocalDate`. -/
def getMonthPeriod (month year : ℤ) : String × String :=
  (formatLocalDate (jsMakeDate year month 1), formatLocalDate (jsMakeDate year (month + 1) 0))

/-! ### Reference ISO-8601 week numbering

Modelled from the spec: “shift to the Thursday of the same ISO week, then
measure weeks since that year's January-4th-anchored week 1”. -/

/-- ISO day of week (1 = Monday … 7 = Sunday) of a day number. -/
def isoDowNum (n : ℤ) : ℤ := (n + 5) % 7 + 1

/-- Modelled from the spec: the Thursday of the ISO week containing `d`. -/
def isoThursday (d : CDate) : CDate := addDays d (4 - isoDowNum (dayNumber d))

/-- Modelled from the spec: the day number of the Monday of week 1 of ISO year
`y`, anchored at January 4 (which is always in week 1). -/
def isoWeek1Monday (y : ℤ) : ℤ :=
  dayNumber ⟨y, 1, 4⟩ - (isoDowNum (dayNumber ⟨y, 1, 4⟩) - 1)

/-- Modelled from the spec: the reference ISO-8601 week number of a date —
whole weeks elapsed since the week-1 Monday of the Thursday's year, plus 1. -/
def isoWeekNumber (d : CDate) : ℤ :=
  let t := isoThursday d
  (dayNumber t - isoWeek1Monday t.year) / 7 + 1


/-! ### Data model of the metrics engine

Monetary amounts, counts and ratios (JS `number`s) are embedded as `ℚ`;
nullable numbers as `Option ℚ`; the `Map` of shop code to daily rows as an
association list. -/

/-- One row of a shop's daily marketing data (`sheets.ts`, `MarketingDailyMetrics`). -/
structure MarketingDailyMetrics where
  date : String
  orderRevenue : ℚ
  spend : ℚ
  orders : ℚ
  newCustomerOrders : ℚ
  metaSpend : ℚ
  metaPixelRevenue : ℚ
  metaChannelRevenue : ℚ
  metaPixelNcRevenue : ℚ
  googleSpend : ℚ
  googlePixelRevenue : ℚ
  googleChannelRevenue : ℚ
  googlePixelNcRevenue : ℚ
  tiktokSpend : ℚ
  tiktokPixelRevenue : ℚ
  tiktokChannelRevenue : ℚ
  tiktokPixelNcRevenue : ℚ
  deriving DecidableEq, Repr

/-- Aggregated period metrics (`types.ts`, `PeriodMarketingMetrics`). -/
structure PeriodMarketingMetrics where
  revenue : ℚ
  spend : ℚ
  orders : ℚ
  newCustomerOrders : ℚ
  mer : Option ℚ
  ncPercent : Option ℚ
  aov : Option ℚ
  metaSpend : ℚ
  metaPixelRevenue : ℚ
  metaChannelRevenue : ℚ
  metaPixelNcRevenue : ℚ
  googleSpend : ℚ
  googlePixelRevenue : ℚ
  googleChannelRevenue : ℚ
  googlePixelNcRevenue : ℚ
  tiktokSpend : ℚ
  tiktokPixelRevenue : ℚ
  tiktokChannelRevenue : ℚ
  tiktokPixelNcRevenue : ℚ
  daysWithData : ℕ
  deriving DecidableEq, Repr

/-- Sum of one numeric field over a list of daily rows (the accumulation loop
of `aggregatePeriodMetrics`). -/
def sumBy (l : List MarketingDailyMetrics) (f : MarketingDailyMetrics → ℚ) : ℚ :=
  (l.map f).sum

/-- Embedding of `aggregatePeriodMetrics` (`metrics.ts`): totals by a linear
pass; `mer`, `ncPercent`, `aov` guarded by their denominators; the empty input
short-circuits to the all-zero / all-null record. -/
def aggregatePeriodMetrics (dailyMetrics : List MarketingDailyMetrics) : PeriodMarketingMetrics :=
  if dailyMetrics.isEmpty then
    { revenue := 0, spend := 0, orders := 0, newCustomerOrders := 0,
      mer := none, ncPercent := none, aov := none,
      metaSpend := 0, metaPixelRevenue := 0, metaChannelRevenue := 0, metaPixelNcRevenue := 0,
      googleSpend := 0, googlePixelRevenue := 0, googleChannelRevenue := 0,
      googlePixelNcRevenue := 0,
      tiktokSpend := 0, tiktokPixelRevenue := 0, tiktokChannelRevenue := 0,
      tiktokPixelNcRevenue := 0,
      daysWithData := 0 }
  else
    let revenue := sumBy dailyMetrics (fun d => d.orderRevenue)
    let spend := sumBy dailyMetrics (fun d => d.spend)
    let orders := sumBy dailyMetrics (fun d => d.orders)
    let newCustomerOrders := sumBy dailyMetrics (fun d => d.newCustomerOrders)
    { revenue := revenue, spend := spend, orders := orders,
      newCustomerOrders := newCustomerOrders,
      mer := if 0 < revenue then some (spend / revenue * 100) else none,
      ncPercent := if 0 < orders then some (newCustomerOrders / orders * 100) else none,
      aov := if 0 < orders then some (revenue / orders) else none,
      metaSpend := sumBy dailyMetrics (fun d => d.metaSpend),
      metaPixelRevenue := sumBy dailyMetrics (fun d => d.metaPixelRevenue),
      metaChannelRevenue := sumBy dailyMetrics (fun d => d.metaChannelRevenue),
      metaPixelNcRevenue := sumBy dailyMetrics (fun d => d.metaPixelNcRevenue),
      googleSpend := sumBy dailyMetrics (fun d => d.googleSpend),
      googlePixelRevenue := sumBy dailyMetrics (fun d => d.googlePixelRevenue),
      googleChannelRevenue := sumBy dailyMetrics (fun d => d.googleChannelRevenue),
      googlePixelNcRevenue := sumBy dailyMetrics (fun d => d.googlePixelNcRevenue),
      tiktokSpend := sumBy dailyMetrics (fun d => d.tiktokSpend),
      tiktokPixelRevenue := sumBy dailyMetrics (fun d => d.tiktokPixelRevenue),
      tiktokChannelRevenue := sumBy dailyMetrics (fun d => d.tiktokChannelRevenue),
      tiktokPixelNcRevenue := sumBy dailyMetrics (fun d => d.tiktokPixelNcRevenue),
      daysWithData := dailyMetrics.length }

/-- Result triple of `calculateChannelROAS`. -/
structure ChannelROAS where
  pixelROAS : Option ℚ
  channelROAS : Option ℚ
  ncROAS : Option ℚ
  deriving DecidableEq, Repr

/-- Embedding of `calculateChannelROAS` (`metrics.ts`): all three ratios are
null when spend is zero or negative. -/
def calculateChannelROAS (spend pixelRevenue channelRevenue ncRevenue : ℚ) : ChannelROAS :=
  if spend ≤ 0 then ⟨none, none, none⟩
  else ⟨some (pixelRevenue / spend), some (channelRevenue / spend), some (ncRevenue / spend)⟩

/-- The three ad channels (`types.ts`, `Channel`). -/
inductive Channel where
  | Meta
  | Google
  | TikTok
  deriving DecidableEq, Repr

/-- Per-channel metrics entry (`types.ts`, `ChannelMetrics`); the optional
`ncOrders` field is present only when requested by monthly reports. -/
structure ChannelMetrics where
  channel : Channel
  spend : ℚ
  pixelROAS : Option ℚ
  channelROAS : Option ℚ
  ncROAS : Option ℚ
  ncOrders : Option ℚ
  deriving DecidableEq, Repr

/-- Embedding of `getChannelMetrics` (`metrics.ts`): one entry per channel
whose summed spend is strictly positive, in Meta, Google, TikTok order. -/
def getChannelMetrics (metrics : PeriodMarketingMetrics) (includeNcOrders : Bool) :
    List ChannelMetrics :=
  (if 0 < metrics.metaSpend then
    [{ channel := Channel.Meta, spend := metrics.metaSpend,
       pixelROAS := (calculateChannelROAS metrics.metaSpend metrics.metaPixelRevenue
         metrics.metaChannelRevenue metrics.metaPixelNcRevenue).pixelROAS,
       channelROAS := (calculateChannelROAS metrics.metaSpend metrics.metaPixelRevenue
         metrics.metaChannelRevenue metrics.metaPixelNcRevenue).channelROAS,
       ncROAS := (calculateChannelROAS metrics.metaSpend metrics.metaPixelRevenue
         metrics.metaChannelRevenue metrics.metaPixelNcRevenue).ncROAS,
       ncOrders := if includeNcOrders then some 0 else none }]
  else []) ++
  (if 0 < metrics.googleSpend then
    [{ channel := Channel.Google, spend := metrics.googleSpend,
       pixelROAS := (calculateChannelROAS metrics.googleSpend metrics.googlePixelRevenue
         metrics.googleChannelRevenue metrics.googlePixelNcRevenue).pixelROAS,
       channelROAS := (calculateChannelROAS metrics.googleSpend metrics.googlePixelRevenue
         metrics.googleChannelRevenue metrics.googlePixelNcRevenue).channelROAS,
       ncROAS := (calculateChannelROAS metrics.googleSpend metrics.googlePixelRevenue
         metrics.googleChannelRevenue metrics.googlePixelNcRevenue).ncROAS,
       ncOrders := if includeNcOrders then some 0 else none }]
  else []) ++
  (if 0 < metrics.tiktokSpend then
    [{ channel := Channel.TikTok, spend := metrics.tiktokSpend,
       pixelROAS := (calculateChannelROAS metrics.tiktokSpend metrics.tiktokPixelRevenue
         metrics.tiktokChannelRevenue metrics.tiktokPixelNcRevenue).pixelROAS,
       channelROAS := (calculateChannelROAS metrics.tiktokSpend metrics.tiktokPixelRevenue
         metrics.tiktokChannelRevenue metrics.tiktokPixelNcRevenue).channelROAS,
       ncROAS := (calculateChannelROAS metrics.tiktokSpend metrics.tiktokPixelRevenue
         metrics.tiktokChannelRevenue metrics.tiktokPixelNcRevenue).ncROAS,
       ncOrders := if includeNcOrders then some 0 else none }]
  else [])

/-- Input row of `calculateWeightedTotals` (the anonymous country shape of its
`metrics.ts` signature). -/
structure CountryWeightedInput where
  revenue : ℚ
  spend : ℚ
  roas : ℚ
  ncRoas : ℚ
  ncPercent : ℚ
  orders : ℚ
  aov : ℚ
  deriving DecidableEq, Repr

/-- Result of `calculateWeightedTotals`. -/
structure WeightedTotals where
  totalRevenue : ℚ
  totalSpend : ℚ
  weightedROAS : ℚ
  weightedNCROAS : ℚ
  weightedNCPercent : ℚ
  weightedAOV : ℚ
  totalOrders : ℚ
  deriving DecidableEq, Repr

/-- Embedding of `calculateWeightedTotals` (`metrics.ts`): additive fields are
summed; each ratio field is summed with per-country weight
`revenue / totalRevenue` when total revenue is positive, weight 0 otherwise. -/
def calculateWeightedTotals (countries : List CountryWeightedInput) : WeightedTotals :=
  let totalRevenue := (countries.map (fun c => c.revenue)).sum
  let weight := fun c : CountryWeightedInput =>
    if 0 < totalRevenue then c.revenue / totalRevenue else 0
  { totalRevenue := totalRevenue,
    totalSpend := (countries.map (fun c => c.spend)).sum,
    weightedROAS := (countries.map (fun c => c.roas * weight c)).sum,
    weightedNCROAS := (countries.map (fun c => c.ncRoas * weight c)).sum,
    weightedNCPercent := (countries.map (fun c => c.ncPercent * weight c)).sum,
    weightedAOV := (countries.map (fun c => c.aov * weight c)).sum,
    totalOrders := (countries.map (fun c => c.orders)).sum }

/-- Embedding of `calculateYoY` (`metrics.ts`): null when the baseline is zero
or negative, else the percentage change. -/
def calculateYoY (current previous : ℚ) : Option ℚ :=
  if previous ≤ 0 then none else some ((current / previous - 1) * 100)

/-- The distinct renderings `formatYoY` can produce. The `percent` case keeps
the exact change value whose 1-decimal rendering (with sign) the code emits;
the other five cases are the fixed strings of the code, in source order:
the em dash, `NEW`, the negative-baseline warning, and the two saturation
markers. -/
inductive YoYDisplay where
  | noData
  | newMarket
  | negBaseline
  | above999
  | below999
  | percent (change : ℚ)
  deriving DecidableEq, Repr

/-- Embedding of `formatYoY` (`formatting.ts`, lines 46-54): a null baseline
renders `NEW` when the current value is positive, the no-data dash otherwise;
a zero baseline identically; a negative baseline renders the warning marker;
otherwise the percentage change, saturated beyond magnitude 999. -/
def formatYoY (current : ℚ) (yoy : Option ℚ) : YoYDisplay :=
  match yoy with
  | none => if 0 < current then YoYDisplay.newMarket else YoYDisplay.noData
  | some v =>
    if v = 0 then (if 0 < current then YoYDisplay.newMarket else YoYDisplay.noData)
    else if v < 0 then YoYDisplay.negBaseline
    else
      let change := (current / v - 1) * 100
      if 999 < |change| then
        (if 0 ≤ change then YoYDisplay.above999 else YoYDisplay.below999)
      else YoYDisplay.percent change

/-! ### Shop configuration and the country-metrics module -/

/-- Shop configuration (`shops.ts`, `Shop`). -/
structure Shop where
  code : String
  shopName : String
  domain : String
  currency : String
  flag : String
  exchangeRateToNOK : ℚ
  vatRate : ℚ
  deriving DecidableEq, Repr

/-- The configured shop list (`shops.ts`, `SHOPS`). -/
def SHOPS : List Shop :=
  [⟨"NO", "Norway", "julegenserbutikken.myshopify.com", "NOK", "🇳🇴", 1, 0.25⟩,
   ⟨"SE", "Sweden", "jultrojbutiken-se.myshopify.com", "SEK", "🇸🇪", 1.02, 0.25⟩,
   ⟨"DK", "Denmark", "julesweaterbutikken.myshopify.com", "DKK", "🇩🇰", 1.60, 0.25⟩,
   ⟨"FI", "Finland", "jouluneulekauppa.myshopify.com", "EUR", "🇫🇮", 11.80, 0.255⟩,
   ⟨"DE", "Germany", "jollyweihnachtspullover.myshopify.com", "EUR", "🇩🇪", 11.80, 0.19⟩,
   ⟨"NL", "Netherlands", "sillysanta-nl.myshopify.com", "EUR", "🇳🇱", 11.80, 0.21⟩,
   ⟨"UK", "UK", "sillysanta-uk.myshopify.com", "GBP", "🇬🇧", 14.00, 0.20⟩,
   ⟨"COM", "Europe", "sillysanta.myshopify.com", "USD", "🇪🇺", 11.00, 0.25⟩]

/-- The shop-code-keyed map of daily rows (`Map<string, MarketingDailyMetrics[]>`),
as an association list whose keys are unique in any value a JS `Map` can take. -/
abbrev AllData := List (String × List MarketingDailyMetrics)

/-- Embedding of `getMetricsForPeriod` (`sheets.ts`): keep the rows whose date
lies in the inclusive `[startDate, endDate]` range (lexicographic comparison
of ISO date strings). -/
def getMetricsForPeriod (allData : List MarketingDailyMetrics) (startDate endDate : String) :
    List MarketingDailyMetrics :=
  allData.filter (fun m => decide (startDate ≤ m.date) && decide (m.date ≤ endDate))

/-- The per-record transform of `applyVatCorrection`: divide the ten revenue
fields by the VAT divisor, leave date, orders, new-customer orders and every
spend field untouched. -/
def vatCorrectDay (vatDivisor : ℚ) (day : MarketingDailyMetrics) : MarketingDailyMetrics :=
  { day with
    orderRevenue := day.orderRevenue / vatDivisor,
    metaPixelRevenue := day.metaPixelRevenue / vatDivisor,
    metaChannelRevenue := day.metaChannelRevenue / vatDivisor,
    metaPixelNcRevenue := day.metaPixelNcRevenue / vatDivisor,
    googlePixelRevenue := day.googlePixelRevenue / vatDivisor,
    googleChannelRevenue := day.googleChannelRevenue / vatDivisor,
    googlePixelNcRevenue := day.googlePixelNcRevenue / vatDivisor,
    tiktokPixelRevenue := day.tiktokPixelRevenue / vatDivisor,
    tiktokChannelRevenue := day.tiktokChannelRevenue / vatDivisor,
    tiktokPixelNcRevenue := day.tiktokPixelNcRevenue / vatDivisor }

/-- Embedding of `applyVatCorrection` (country-metrics module): for each shop
of the configuration whose VAT divisor `1 + vatRate` differs from 1, rewrite
that shop's entry of the data map through `vatCorrectDay`. The in-place
mutation of the source is rendered as a pure fold returning the updated map. -/
def applyVatCorrection (shops : List Shop) (allData : AllData) : AllData :=
  shops.foldl (fun acc shop =>
    if 1 + shop.vatRate = 1 then acc
    else acc.map (fun e =>
      if e.1 = shop.code then (e.1, e.2.map (vatCorrectDay (1 + shop.vatRate))) else e)) allData

/-- Country metrics record (`types.ts`, `CountryMarketingMetrics`, in the
variant produced by the country-metrics module with `roas` / `ncRoas`). -/
structure CountryMarketingMetrics where
  shop : Shop
  revenue : ℚ
  revenueYoY : Option ℚ
  spend : ℚ
  roas : ℚ
  ncRoas : ℚ
  ncPercent : ℚ
  orders : ℚ
  aov : ℚ
  channels : List ChannelMetrics
  deriving DecidableEq, Repr

/-- Embedding of `getCountryMetrics` (country-metrics module): aggregate both
periods, convert to NOK, derive `roas` / `ncRoas` with a zero default on zero
spend, and expose the year-over-year revenue baseline only when positive. -/
def getCountryMetrics (shop : Shop) (currentData yoyData : List MarketingDailyMetrics)
    (includeNcOrders : Bool) : CountryMarketingMetrics :=
  let current := aggregatePeriodMetrics currentData
  let yoy := aggregatePeriodMetrics yoyData
  let revenueNOK := current.revenue * shop.exchangeRateToNOK
  let yoyRevenueNOK := yoy.revenue * shop.exchangeRateToNOK
  let spendNOK := current.spend * shop.exchangeRateToNOK
  let aovNOK := current.aov.getD 0 * shop.exchangeRateToNOK
  let totalNcRevenue := (current.metaPixelNcRevenue + current.googlePixelNcRevenue +
    current.tiktokPixelNcRevenue) * shop.exchangeRateToNOK
  let roas := if 0 < spendNOK then revenueNOK / spendNOK else 0
  let ncRoas := if 0 < spendNOK then totalNcRevenue / spendNOK else 0
  let channels := getChannelMetrics current includeNcOrders
  let channelsNOK := channels.map (fun ch => { ch with spend := ch.spend * shop.exchangeRateToNOK })
  { shop := shop,
    revenue := revenueNOK,
    revenueYoY := if 0 < yoyRevenueNOK then some yoyRevenueNOK else none,
    spend := spendNOK,
    roas := roas,
    ncRoas := ncRoas,
    ncPercent := current.ncPercent.getD 0,
    orders := current.orders,
    aov := aovNOK,
    channels := channelsNOK }

/-- Embedding of `filterCountriesWithSpend` (country-metrics module): the shop
codes of the data map, in map order, whose summed spend over the period is
strictly positive. -/
def filterCountriesWithSpend (allData : AllData) (startDate endDate : String) : List String :=
  allData.filterMap (fun e =>
    if 0 < ((getMetricsForPeriod e.2 startDate endDate).map (fun d => d.spend)).sum
    then some e.1 else none)

/-- The loop body of `getAllCountryMetrics`: look up the configured shop and
the data entry for one shop code (the `continue` statements of the source
become `none`) and build its country record. -/
def buildCountry (allData : AllData) (startDate endDate yoyStartDate yoyEndDate : String)
    (includeNcOrders : Bool) (shopCode : String) : Option CountryMarketingMetrics :=
  match SHOPS.find? (fun s => decide (s.code = shopCode)) with
  | none => none
  | some shop =>
    match allData.find? (fun e => decide (e.1 = shopCode)) with
    | none => none
    | some entry => some (getCountryMetrics shop (getMetricsForPeriod entry.2 startDate endDate)
        (getMetricsForPeriod entry.2 yoyStartDate yoyEndDate) includeNcOrders)

/-- Embedding of `getAllCountryMetrics` (country-metrics module): build one
record per code with spend (skipping codes without a configured shop or a data
entry), then sort by revenue descending, as the stable sort with comparator
`(a, b) => b.revenue - a.revenue` does. -/
def getAllCountryMetrics (allData : AllData)
    (startDate endDate yoyStartDate yoyEndDate : String) (includeNcOrders : Bool) :
    List CountryMarketingMetrics :=
  ((filterCountriesWithSpend allData startDate endDate).filterMap
    (buildCountry allData startDate endDate yoyStartDate yoyEndDate includeNcOrders)).mergeSort
    (fun a b => decide (b.revenue ≤ a.revenue))

/-- The daily rows the data map holds for one shop code (empty when the map
has no entry for it). -/
def shopData (allData : AllData) (code : String) : List MarketingDailyMetrics :=
  ((allData.find? (fun e => decide (e.1 = code))).map (fun e => e.2)).getD []

/-- The summed spend of one shop code over a period, as the claim about
`getAllCountryMetrics` means it: 0 when the shop has no data at all. -/
def periodSpend (allData : AllData) (code : String) (startDate endDate : String) : ℚ :=
  ((getMetricsForPeriod (shopData allData code) startDate endDate).map (fun d => d.spend)).sum


/-- The record the VAT pass is specified to produce from one daily row: the
ten VAT-inclusive revenue fields divided by `1 + vatRate`, all other fields
(date, spend, per-channel spend, orders, new-customer orders) unchanged. -/
def vatSpecDay (vatRate : ℚ) (day : MarketingDailyMetrics) : MarketingDailyMetrics :=
  { date := day.date
    orderRevenue := day.orderRevenue / (1 + vatRate)
    spend := day.spend
    orders := day.orders
    newCustomerOrders := day.newCustomerOrders
    metaSpend := day.metaSpend
    metaPixelRevenue := day.metaPixelRevenue / (1 + vatRate)
    metaChannelRevenue := day.metaChannelRevenue / (1 + vatRate)
    metaPixelNcRevenue := day.metaPixelNcRevenue / (1 + vatRate)
    googleSpend := day.googleSpend
    googlePixelRevenue := day.googlePixelRevenue / (1 + vatRate)
    googleChannelRevenue := day.googleChannelRevenue / (1 + vatRate)
    googlePixelNcRevenue := day.googlePixelNcRevenue / (1 + vatRate)
    tiktokSpend := day.tiktokSpend
    tiktokPixelRevenue := day.tiktokPixelRevenue / (1 + vatRate)
    tiktokChannelRevenue := day.tiktokChannelRevenue / (1 + vatRate)
    tiktokPixelNcRevenue := day.tiktokPixelNcRevenue / (1 + vatRate) }

/-! ### Calendar lemmas -/


theorem leapDays_bd (y : ℤ) : 0 ≤ leapDays y ∧ leapDays y ≤ 1 := by
  unfold leapDays; split <;> omega

theorem daysInMonth_pos (y m : ℤ) : 1 ≤ daysInMonth y m := by
  have h := leapDays_bd y
  unfold daysInMonth; split_ifs <;> omega

set_option maxHeartbeats 1000000 in
theorem monthOffset_nonneg (y m : ℤ) : 0 ≤ monthOffset y m := by
  have h := leapDays_bd y
  unfold monthOffset; split_ifs <;> omega

theorem monthOffset_succ (y m : ℤ) (h1 : 1 ≤ m) (h2 : m ≤ 11) :
    monthOffset y (m + 1) = monthOffset y m + daysInMonth y m := by
  interval_cases m <;> simp [monthOffset, daysInMonth] <;> omega

theorem daysToYear_succ (y : ℤ) :
    daysToYear (y + 1) = daysToYear y + 365 + leapDays y := by
  unfold leapDays
  split_ifs with h
  · unfold isLeap at h; unfold daysToYear; omega
  · unfold isLeap at h; unfold daysToYear; omega

theorem daysToYear_ge (y : ℤ) (hy : 1 ≤ y) : 366 ≤ daysToYear y := by
  unfold daysToYear; omega

theorem dayNumber_ge (d : CDate) (hv : Valid d) : daysToYear d.year ≤ dayNumber d := by
  obtain ⟨h1, h2, h3, h4⟩ := hv
  have := monthOffset_nonneg d.year d.month
  unfold dayNumber; omega

theorem nextDay_spec (d : CDate) (hv : Valid d) :
    Valid (nextDay d) ∧ dayNumber (nextDay d) = dayNumber d + 1 := by
  obtain ⟨h1, h2, h3, h4⟩ := hv
  by_cases hd : d.day < daysInMonth d.year d.month
  · have he : nextDay d = ⟨d.year, d.month, d.day + 1⟩ := by unfold nextDay; rw [if_pos hd]
    rw [he]
    refine ⟨⟨h1, h2, by dsimp only; omega, by dsimp only; omega⟩, ?_⟩
    unfold dayNumber; dsimp only; omega
  · by_cases hm : d.month < 12
    · have he : nextDay d = ⟨d.year, d.month + 1, 1⟩ := by
        unfold nextDay; rw [if_neg hd, if_pos hm]
      have hsucc := monthOffset_succ d.year d.month h1 (by omega)
      have hpos := daysInMonth_pos d.year (d.month + 1)
      rw [he]
      refine ⟨⟨by dsimp only; omega, by dsimp only; omega, by dsimp only; omega,
        by dsimp only; omega⟩, ?_⟩
      unfold dayNumber; dsimp only; omega
    · have he : nextDay d = ⟨d.year + 1, 1, 1⟩ := by
        unfold nextDay; rw [if_neg hd, if_neg hm]
      have hstep := daysToYear_succ d.year
      have hm12 : d.month = 12 := by omega
      have hoff : monthOffset d.year 12 = 334 + leapDays d.year := by
        simp [monthOffset]
      have hdim : daysInMonth d.year 12 = 31 := by simp [daysInMonth]
      have hoff1 : monthOffset (d.year + 1) 1 = 0 := by simp [monthOffset]
      have hdim1 := daysInMonth_pos (d.year + 1) 1
      rw [he]
      refine ⟨⟨by dsimp only; omega, by dsimp only; omega, by dsimp only; omega,
        by dsimp only; omega⟩, ?_⟩
      unfold dayNumber; dsimp only
      rw [hm12] at h4 hd ⊢
      rw [hoff1, hoff]
      omega

theorem prevDay_spec (d : CDate) (hv : Valid d) :
    Valid (prevDay d) ∧ dayNumber (prevDay d) = dayNumber d - 1 := by
  obtain ⟨h1, h2, h3, h4⟩ := hv
  by_cases hd : 1 < d.day
  · have he : prevDay d = ⟨d.year, d.month, d.day - 1⟩ := by unfold prevDay; rw [if_pos hd]
    rw [he]
    refine ⟨⟨h1, h2, by dsimp only; omega, by dsimp only; omega⟩, ?_⟩
    unfold dayNumber; dsimp only; omega
  · by_cases hm : 1 < d.month
    · have he : prevDay d = ⟨d.year, d.month - 1, daysInMonth d.year (d.month - 1)⟩ := by
        unfold prevDay; rw [if_neg hd, if_pos hm]
      have hsucc := monthOffset_succ d.year (d.month - 1) (by omega) (by omega)
      have hpos := daysInMonth_pos d.year (d.month - 1)
      rw [show d.month - 1 + 1 = d.month by omega] at hsucc
      rw [he]
      refine ⟨⟨by dsimp only; omega, by dsimp only; omega, by dsimp only; omega,
        by dsimp only; omega⟩, ?_⟩
      unfold dayNumber; dsimp only; omega
    · have he : prevDay d = ⟨d.year - 1, 12, 31⟩ := by
        unfold prevDay; rw [if_neg hd, if_neg hm]
      have hstep := daysToYear_succ (d.year - 1)
      rw [show d.year - 1 + 1 = d.year by omega] at hstep
      have hm1 : d.month = 1 := by omega
      have hoff : monthOffset (d.year - 1) 12 = 334 + leapDays (d.year - 1) := by
        simp [monthOffset]
      have hdim : daysInMonth (d.year - 1) 12 = 31 := by simp [daysInMonth]
      have hoff1 : monthOffset d.year 1 = 0 := by simp [monthOffset]
      rw [he]
      refine ⟨⟨by dsimp only; omega, by dsimp only; omega, by dsimp only; omega,
        by dsimp only; omega⟩, ?_⟩
      unfold dayNumber; dsimp only
      rw [hm1] at h4 ⊢
      rw [hoff1, hoff]
      omega

theorem addF_spec (k : ℕ) : ∀ d : CDate, Valid d →
    Valid (addF d k) ∧ dayNumber (addF d k) = dayNumber d + k := by
  induction k with
  | zero => intro d hv; exact ⟨hv, by simp [addF]⟩
  | succ n ih =>
    intro d hv
    obtain ⟨hv1, he1⟩ := nextDay_spec d hv
    obtain ⟨hv2, he2⟩ := ih (nextDay d) hv1
    have hr : addF d (n + 1) = addF (nextDay d) n := rfl
    refine ⟨by rw [hr]; exact hv2, ?_⟩
    rw [hr, he2, he1]; push_cast; ring

theorem addB_spec (k : ℕ) : ∀ d : CDate, Valid d →
    Valid (addB d k) ∧ dayNumber (addB d k) = dayNumber d - k := by
  induction k with
  | zero => intro d hv; exact ⟨hv, by simp [addB]⟩
  | succ n ih =>
    intro d hv
    obtain ⟨hv1, he1⟩ := prevDay_spec d hv
    obtain ⟨hv2, he2⟩ := ih (prevDay d) hv1
    have hr : addB d (n + 1) = addB (prevDay d) n := rfl
    refine ⟨by rw [hr]; exact hv2, ?_⟩
    rw [hr, he2, he1]; push_cast; ring

theorem addDays_spec (d : CDate) (k : ℤ) (hv : Valid d) :
    Valid (addDays d k) ∧ dayNumber (addDays d k) = dayNumber d + k := by
  unfold addDays
  split_ifs with h
  · obtain ⟨hv2, he2⟩ := addF_spec k.toNat d hv
    exact ⟨hv2, by rw [he2]; omega⟩
  · obtain ⟨hv2, he2⟩ := addB_spec (-k).toNat d hv
    exact ⟨hv2, by rw [he2]; omega⟩

theorem addF_within_month (k : ℕ) : ∀ y m dd : ℤ, Valid ⟨y, m, dd⟩ →
    dd + k ≤ daysInMonth y m → addF ⟨y, m, dd⟩ k = ⟨y, m, dd + k⟩ := by
  induction k with
  | zero => intro y m dd _ _; simp [addF]
  | succ n ih =>
    intro y m dd hv hk
    obtain ⟨h1, h2, h3, h4⟩ := hv
    dsimp only at h1 h2 h3 h4 hk
    have hlt : dd < daysInMonth y m := by omega
    have he : nextDay ⟨y, m, dd⟩ = ⟨y, m, dd + 1⟩ := by unfold nextDay; rw [if_pos hlt]
    have hr : addF ⟨y, m, dd⟩ (n + 1) = addF (nextDay ⟨y, m, dd⟩) n := rfl
    rw [hr, he, ih y m (dd + 1) ⟨by dsimp only; omega, by dsimp only; omega,
      by dsimp only; omega, by dsimp only; omega⟩ (by omega)]
    have hc : dd + 1 + (n : ℤ) = dd + ((n : ℤ) + 1) := by ring
    rw [hc]
    norm_cast



theorem jsYear_of_ge (y : ℤ) (hy : 100 ≤ y) : jsYear y = y := by
  unfold jsYear; split_ifs <;> omega

theorem jsMakeDate_eq_self (d : CDate) (hv : Valid d) (hy : 100 ≤ d.year) :
    jsMakeDate d.year (d.month - 1) d.day = d := by
  obtain ⟨h1, h2, h3, h4⟩ := hv
  unfold jsMakeDate
  rw [jsYear_of_ge d.year hy]
  simp only
  have hmod : ((d.year * 12 + (d.month - 1)) % 12 + 12) % 12 = d.month - 1 := by omega
  rw [hmod]
  have hdiv : (d.year * 12 + (d.month - 1) - (d.month - 1)) / 12 = d.year := by omega
  rw [hdiv]
  have hmm : d.month - 1 + 1 = d.month := by ring
  rw [hmm]
  unfold addDays
  rw [if_pos (by omega : (0:ℤ) ≤ d.day - 1)]
  rw [addF_within_month (d.day - 1).toNat d.year d.month 1
    (by unfold Valid; exact ⟨h1, h2, by norm_num, daysInMonth_pos d.year d.month⟩)
    (by omega)]
  have : 1 + ((d.day - 1).toNat : ℤ) = d.day := by omega
  rw [this]

theorem jsMakeDate_jan1 (y : ℤ) (hy : 100 ≤ y) : jsMakeDate y 0 1 = ⟨y, 1, 1⟩ := by
  unfold jsMakeDate
  rw [jsYear_of_ge y hy]
  simp only
  have hmod : ((y * 12 + 0) % 12 + 12) % 12 = 0 := by omega
  rw [hmod]
  have hdiv : (y * 12 + 0 - 0) / 12 = y := by omega
  rw [hdiv]
  norm_num
  unfold addDays
  norm_num [addF]

theorem dayNumber_jan1 (y : ℤ) : dayNumber ⟨y, 1, 1⟩ = daysToYear y := by
  unfold dayNumber
  norm_num [monthOffset]

theorem isoWeek1Monday_eq (y : ℤ) :
    isoWeek1Monday y = daysToYear y + 3 - (isoDowNum (daysToYear y + 3) - 1) := by
  unfold isoWeek1Monday
  have : dayNumber ⟨y, 1, 4⟩ = daysToYear y + 3 := by
    unfold dayNumber; norm_num [monthOffset]; omega
  rw [this]

theorem week_arith (T J : ℤ) (h4 : isoDowNum T = 4) :
    ceilDiv (T - J + 1) 7 = (T - (J + 3 - (isoDowNum (J + 3) - 1))) / 7 + 1 := by
  unfold ceilDiv isoDowNum at *; omega

theorem getWeekNumber_eq_iso (d : CDate) (hv : Valid d) (hy : 100 ≤ d.year)
    (ht : 100 ≤ (isoThursday d).year) : getWeekNumber d = isoWeekNumber d := by
  have hself : jsMakeDate d.year (d.month - 1) d.day = d := jsMakeDate_eq_self d hv hy
  have hdow : (if jsDow d = 0 then 7 else jsDow d) = isoDowNum (dayNumber d) := by
    unfold jsDow isoDowNum; split_ifs <;> omega
  have hT := addDays_spec d (4 - isoDowNum (dayNumber d)) hv
  have hTdef : isoThursday d = addDays d (4 - isoDowNum (dayNumber d)) := rfl
  rw [← hTdef] at hT
  obtain ⟨hTvalid, hTnum⟩ := hT
  have hdow4 : isoDowNum (dayNumber (isoThursday d)) = 4 := by
    unfold isoDowNum at *; omega
  simp only [getWeekNumber]
  rw [hself, hdow, ← hTdef, jsMakeDate_jan1 _ ht, dayNumber_jan1]
  simp only [isoWeekNumber]
  rw [isoWeek1Monday_eq]
  exact week_arith (dayNumber (isoThursday d)) (daysToYear (isoThursday d).year) hdow4


/-! ### Claim theorems: period resolution -/

set_option maxRecDepth 8000 in
/-- C1: the spec claims that for a 1-indexed month `m` the calendar-month
resolver `getMonthPeriod(m, y)` spans exactly month `m` of year `y` (February
2024 ending on 2024-02-29). The caller in `index.ts` passes a 1-indexed month
with the comment that `getMonthPeriod` uses 1-indexed months, but the
implementation hands the argument to the 0-indexed `Date` constructor, so the
returned range is the following calendar month: `getMonthPeriod(2, 2024)` is
March 2024, not February. This theorem evaluates the embedded code at the
failing inputs. -/
theorem getMonthPeriod_shifts_one_month :
    getMonthPeriod 2 2024 = ("2024-03-01", "2024-03-31") ∧
    getMonthPeriod 2 2023 = ("2023-03-01", "2023-03-31") ∧
    getMonthPeriod 2 2024 ≠ ("2024-02-01", "2024-02-29") := by
  refine ⟨by decide, by decide, by decide⟩

set_option maxRecDepth 8000 in
/-- C2 (amended): for every valid calendar date whose year — and whose
ISO-week Thursday's year — is at least 100 (outside the two-digit-year
remapping range of the `Date` API), `getWeekNumber` agrees with the reference
ISO-8601 week number, and the two year-boundary examples of the claim hold:
2024-12-30 is week 1 and 2023-01-01 is week 52. -/
theorem getWeekNumber_matches_iso :
    (∀ d : CDate, Valid d → 100 ≤ d.year → 100 ≤ (isoThursday d).year →
      getWeekNumber d = isoWeekNumber d) ∧
    getWeekNumber ⟨2024, 12, 30⟩ = 1 ∧ getWeekNumber ⟨2023, 1, 1⟩ = 52 :=
  ⟨getWeekNumber_eq_iso, by decide, by decide⟩

set_option maxRecDepth 8000 in
/-- C2 (witness): the universal part of `getWeekNumber_matches_iso` applied at
the concrete date 2026-10-12, with its hypotheses discharged by evaluation. -/
theorem getWeekNumber_matches_iso_witness :
    Valid ⟨2026, 10, 12⟩ ∧ getWeekNumber ⟨2026, 10, 12⟩ = isoWeekNumber ⟨2026, 10, 12⟩ :=
  ⟨by decide, getWeekNumber_matches_iso.1 ⟨2026, 10, 12⟩ (by decide) (by decide) (by decide)⟩

set_option maxRecDepth 8000 in
/-- C2 (counterexample): the claim as stated — `getWeekNumber` equals the ISO
week number for every calendar date — fails on the valid date 0050-01-02:
the `Date.UTC` two-digit-year rule remaps year 50 to 1950, so the code
returns week 1 while the ISO-8601 week number of 0050-01-02 is 52. -/
theorem getWeekNumber_year50_mismatch :
    Valid ⟨50, 1, 2⟩ ∧ getWeekNumber ⟨50, 1, 2⟩ = 1 ∧ isoWeekNumber ⟨50, 1, 2⟩ = 52 ∧
    getWeekNumber ⟨50, 1, 2⟩ ≠ isoWeekNumber ⟨50, 1, 2⟩ := by
  refine ⟨by decide, by decide, by decide, by decide⟩


/-! ### Claim theorems: metrics engine -/


/-- C6: aggregating the empty sequence of daily records yields revenue, spend,
orders and new-customer orders 0, daysWithData 0, and null (not 0) efficiency
ratio, new-customer percentage and average order value. -/
theorem aggregatePeriodMetrics_empty :
    (aggregatePeriodMetrics []).revenue = 0 ∧ (aggregatePeriodMetrics []).spend = 0 ∧
    (aggregatePeriodMetrics []).orders = 0 ∧ (aggregatePeriodMetrics []).newCustomerOrders = 0 ∧
    (aggregatePeriodMetrics []).daysWithData = 0 ∧ (aggregatePeriodMetrics []).mer = none ∧
    (aggregatePeriodMetrics []).ncPercent = none ∧ (aggregatePeriodMetrics []).aov = none := by
  refine ⟨rfl, rfl, rfl, rfl, rfl, rfl, rfl, rfl⟩

/-- C3 (counterexample): the claim says an absent/null baseline yields the
no-data result, but `formatYoY` with a null baseline and positive current
value renders `NEW`, exactly as it does for a zero baseline. -/
theorem formatYoY_null_counterexample :
    formatYoY 100 none = YoYDisplay.newMarket ∧ formatYoY 100 none ≠ YoYDisplay.noData := by
  have h : formatYoY 100 none = YoYDisplay.newMarket := by norm_num [formatYoY]
  exact ⟨h, by rw [h]; decide⟩

/-- C3 (amended): the complete case policy of the year-over-year comparator
`formatYoY`. A null baseline behaves exactly like a zero baseline (`NEW` when
current is positive, no-data otherwise); a strictly negative baseline yields
the distinct anomalous marker; a positive baseline yields
`((current / baseline) - 1) * 100`, saturated beyond magnitude 999 to the cap
markers; `formatYoY 50 100` is exactly -50 and `formatYoY 100000 1` renders
the cap. Totality of the Lean function witnesses that no input errors. -/
theorem formatYoY_policy :
    (∀ current : ℚ, formatYoY current none =
      (if 0 < current then YoYDisplay.newMarket else YoYDisplay.noData)) ∧
    (∀ current : ℚ, formatYoY current (some 0) =
      (if 0 < current then YoYDisplay.newMarket else YoYDisplay.noData)) ∧
    (∀ current v : ℚ, v < 0 → formatYoY current (some v) = YoYDisplay.negBaseline) ∧
    (∀ current v : ℚ, 0 < v → |(current / v - 1) * 100| ≤ 999 →
      formatYoY current (some v) = YoYDisplay.percent ((current / v - 1) * 100)) ∧
    (∀ current v : ℚ, 0 < v → 999 < (current / v - 1) * 100 →
      formatYoY current (some v) = YoYDisplay.above999) ∧
    (∀ current v : ℚ, 0 < v → (current / v - 1) * 100 < -999 →
      formatYoY current (some v) = YoYDisplay.below999) ∧
    formatYoY 50 (some 100) = YoYDisplay.percent (-50) ∧
    formatYoY 100000 (some 1) = YoYDisplay.above999 := by
  refine ⟨fun current => rfl, fun current => by norm_num [formatYoY], ?_, ?_, ?_, ?_, ?_, ?_⟩
  · intro current v hv
    simp only [formatYoY]
    rw [if_neg (by linarith : ¬ v = 0), if_pos hv]
  · intro current v hv hle
    simp only [formatYoY]
    rw [if_neg (by linarith : ¬ v = 0), if_neg (by linarith : ¬ v < 0)]
    rw [if_neg (by linarith : ¬ 999 < |(current / v - 1) * 100|)]
  · intro current v hv hgt
    simp only [formatYoY]
    rw [if_neg (by linarith : ¬ v = 0), if_neg (by linarith : ¬ v < 0)]
    rw [if_pos (by rw [abs_of_nonneg (by linarith)]; exact hgt),
      if_pos (by linarith : (0:ℚ) ≤ (current / v - 1) * 100)]
  · intro current v hv hlt
    simp only [formatYoY]
    rw [if_neg (by linarith : ¬ v = 0), if_neg (by linarith : ¬ v < 0)]
    rw [if_pos (by rw [abs_of_neg (by linarith)]; linarith),
      if_neg (by linarith : ¬ (0:ℚ) ≤ (current / v - 1) * 100)]
  · norm_num [formatYoY]
  · norm_num [formatYoY]

/-- C3 (witness): the negative-baseline clause of `formatYoY_policy` at the
concrete input (100, -5). -/
theorem formatYoY_policy_witness :
    (-5 : ℚ) < 0 ∧ formatYoY 100 (some (-5)) = YoYDisplay.negBaseline :=
  ⟨by norm_num, formatYoY_policy.2.2.1 100 (-5) (by norm_num)⟩

/-- C4 (counterexample): with a single entity of revenue -100 the total
revenue is negative; the code yields weighted ratio 0 while the claimed
formula `roas * revenue / total` yields 10, so the claim as stated fails. -/
theorem calculateWeightedTotals_negTotal_counterexample :
    (calculateWeightedTotals [⟨-100, 50, 10, 2, 3, 4, 5⟩]).weightedROAS ≠
      10 * ((-100 : ℚ) / (-100)) := by
  norm_num [calculateWeightedTotals]

/-- C4 (amended): `calculateWeightedTotals` sums revenue, spend and orders
exactly; every ratio field is the revenue-share weighted average
`sum (value * revenue / total revenue)` when the total revenue is strictly
positive, and 0 when the total revenue is zero or negative (in particular for
the empty list); entities A(100, ratio 10), B(300, ratio 2) combine to 4. -/
theorem calculateWeightedTotals_spec (countries : List CountryWeightedInput) :
    (calculateWeightedTotals countries).totalRevenue = (countries.map (fun c => c.revenue)).sum ∧
    (calculateWeightedTotals countries).totalSpend = (countries.map (fun c => c.spend)).sum ∧
    (calculateWeightedTotals countries).totalOrders = (countries.map (fun c => c.orders)).sum ∧
    (0 < (countries.map (fun c => c.revenue)).sum →
      (calculateWeightedTotals countries).weightedROAS =
        (countries.map (fun c =>
          c.roas * c.revenue / (countries.map (fun c => c.revenue)).sum)).sum ∧
      (calculateWeightedTotals countries).weightedNCROAS =
        (countries.map (fun c =>
          c.ncRoas * c.revenue / (countries.map (fun c => c.revenue)).sum)).sum ∧
      (calculateWeightedTotals countries).weightedNCPercent =
        (countries.map (fun c =>
          c.ncPercent * c.revenue / (countries.map (fun c => c.revenue)).sum)).sum ∧
      (calculateWeightedTotals countries).weightedAOV =
        (countries.map (fun c =>
          c.aov * c.revenue / (countries.map (fun c => c.revenue)).sum)).sum) ∧
    ((countries.map (fun c => c.revenue)).sum ≤ 0 →
      (calculateWeightedTotals countries).weightedROAS = 0 ∧
      (calculateWeightedTotals countries).weightedNCROAS = 0 ∧
      (calculateWeightedTotals countries).weightedNCPercent = 0 ∧
      (calculateWeightedTotals countries).weightedAOV = 0) ∧
    (calculateWeightedTotals
      [⟨100, 0, 10, 0, 0, 0, 0⟩, ⟨300, 0, 2, 0, 0, 0, 0⟩]).weightedROAS = 4 := by
  refine ⟨rfl, rfl, rfl, ?_, ?_, ?_⟩
  · intro hpos
    unfold calculateWeightedTotals
    simp [if_pos hpos, mul_div_assoc]
  · intro hle
    unfold calculateWeightedTotals
    simp only [if_neg (not_lt.mpr hle), mul_zero]
    refine ⟨?_, ?_, ?_, ?_⟩ <;> simp
  · norm_num [calculateWeightedTotals]

/-- C4 (witness): the positive-total clause of `calculateWeightedTotals_spec`
at the two-entity example list. -/
theorem calculateWeightedTotals_spec_witness :
    (0:ℚ) <
      (([⟨100, 0, 10, 0, 0, 0, 0⟩, ⟨300, 0, 2, 0, 0, 0, 0⟩] :
        List CountryWeightedInput).map (fun c => c.revenue)).sum ∧
    (calculateWeightedTotals [⟨100, 0, 10, 0, 0, 0, 0⟩, ⟨300, 0, 2, 0, 0, 0, 0⟩]).weightedROAS =
      (([⟨100, 0, 10, 0, 0, 0, 0⟩, ⟨300, 0, 2, 0, 0, 0, 0⟩] :
        List CountryWeightedInput).map (fun c => c.roas * c.revenue /
          (([⟨100, 0, 10, 0, 0, 0, 0⟩, ⟨300, 0, 2, 0, 0, 0, 0⟩] :
            List CountryWeightedInput).map (fun c => c.revenue)).sum)).sum :=
  ⟨by norm_num, ((calculateWeightedTotals_spec _).2.2.2.1 (by norm_num)).1⟩



/-- `calculateChannelROAS` on positive spend yields the three quotients. -/
theorem calculateChannelROAS_pos (spend p c n : ℚ) (h : 0 < spend) :
    calculateChannelROAS spend p c n =
      ⟨some (p / spend), some (c / spend), some (n / spend)⟩ := by
  unfold calculateChannelROAS
  rw [if_neg (not_le.mpr h)]

set_option maxHeartbeats 1000000 in
/-- C5: a channel appears in the `getChannelMetrics` list if and only if its
summed period spend is strictly positive (so zero- or negative-spend channels
are absent regardless of their revenue sub-totals), and every listed channel
carries its spend and three non-null ROAS values equal to its pixel, platform
and new-customer revenue divided by its spend. -/
theorem getChannelMetrics_spec (m : PeriodMarketingMetrics) (b : Bool) :
    ((∃ c ∈ getChannelMetrics m b, c.channel = Channel.Meta) ↔ 0 < m.metaSpend) ∧
    ((∃ c ∈ getChannelMetrics m b, c.channel = Channel.Google) ↔ 0 < m.googleSpend) ∧
    ((∃ c ∈ getChannelMetrics m b, c.channel = Channel.TikTok) ↔ 0 < m.tiktokSpend) ∧
    (∀ c ∈ getChannelMetrics m b, 0 < c.spend ∧
      (c.channel = Channel.Meta → c.spend = m.metaSpend ∧
        c.pixelROAS = some (m.metaPixelRevenue / m.metaSpend) ∧
        c.channelROAS = some (m.metaChannelRevenue / m.metaSpend) ∧
        c.ncROAS = some (m.metaPixelNcRevenue / m.metaSpend)) ∧
      (c.channel = Channel.Google → c.spend = m.googleSpend ∧
        c.pixelROAS = some (m.googlePixelRevenue / m.googleSpend) ∧
        c.channelROAS = some (m.googleChannelRevenue / m.googleSpend) ∧
        c.ncROAS = some (m.googlePixelNcRevenue / m.googleSpend)) ∧
      (c.channel = Channel.TikTok → c.spend = m.tiktokSpend ∧
        c.pixelROAS = some (m.tiktokPixelRevenue / m.tiktokSpend) ∧
        c.channelROAS = some (m.tiktokChannelRevenue / m.tiktokSpend) ∧
        c.ncROAS = some (m.tiktokPixelNcRevenue / m.tiktokSpend))) := by
  by_cases h1 : 0 < m.metaSpend <;> by_cases h2 : 0 < m.googleSpend <;>
    by_cases h3 : 0 < m.tiktokSpend <;>
    simp [getChannelMetrics, h1, h2, h3, calculateChannelROAS_pos]

/-- C5 (witness): the Meta clause of `getChannelMetrics_spec` at a concrete
period-metrics record with Meta spend 10. -/
theorem getChannelMetrics_spec_witness :
    (0 : ℚ) <
      ({ revenue := 0, spend := 0, orders := 0, newCustomerOrders := 0,
         mer := none, ncPercent := none, aov := none,
         metaSpend := 10, metaPixelRevenue := 20, metaChannelRevenue := 30,
         metaPixelNcRevenue := 5,
         googleSpend := 0, googlePixelRevenue := 7, googleChannelRevenue := 0,
         googlePixelNcRevenue := 0,
         tiktokSpend := 0, tiktokPixelRevenue := 0, tiktokChannelRevenue := 0,
         tiktokPixelNcRevenue := 0, daysWithData := 1 } : PeriodMarketingMetrics).metaSpend ∧
    (∃ c ∈ getChannelMetrics
      { revenue := 0, spend := 0, orders := 0, newCustomerOrders := 0,
        mer := none, ncPercent := none, aov := none,
        metaSpend := 10, metaPixelRevenue := 20, metaChannelRevenue := 30,
        metaPixelNcRevenue := 5,
        googleSpend := 0, googlePixelRevenue := 7, googleChannelRevenue := 0,
        googlePixelNcRevenue := 0,
        tiktokSpend := 0, tiktokPixelRevenue := 0, tiktokChannelRevenue := 0,
        tiktokPixelNcRevenue := 0, daysWithData := 1 } true, c.channel = Channel.Meta) :=
  ⟨by norm_num, (getChannelMetrics_spec _ true).1.mpr (by norm_num)⟩

/-- The totals of `aggregatePeriodMetrics` are the field sums in both the
empty and the non-empty branch. -/
theorem aggregate_fields (l : List MarketingDailyMetrics) :
    (aggregatePeriodMetrics l).revenue = sumBy l (fun d => d.orderRevenue) ∧
    (aggregatePeriodMetrics l).spend = sumBy l (fun d => d.spend) ∧
    (aggregatePeriodMetrics l).metaPixelNcRevenue = sumBy l (fun d => d.metaPixelNcRevenue) ∧
    (aggregatePeriodMetrics l).googlePixelNcRevenue = sumBy l (fun d => d.googlePixelNcRevenue) ∧
    (aggregatePeriodMetrics l).tiktokPixelNcRevenue = sumBy l (fun d => d.tiktokPixelNcRevenue) := by
  unfold aggregatePeriodMetrics
  split_ifs with h
  · rw [List.isEmpty_iff] at h
    subst h
    simp [sumBy]
  · exact ⟨rfl, rfl, rfl, rfl, rfl⟩

/-- C8 (counterexample): on one day with revenue 500 and spend 100 the
aggregator reports mer = 20 (the spend share of revenue as a percentage),
not revenue / spend = 5, so the claim as stated fails. -/
theorem aggregatePeriodMetrics_mer_counterexample :
    (aggregatePeriodMetrics
      [⟨"2025-01-01", 500, 100, 0, 0, 0, 0, 0, 0, 0, 0, 0, 0, 0, 0, 0, 0⟩]).mer = some 20 ∧
    (aggregatePeriodMetrics
      [⟨"2025-01-01", 500, 100, 0, 0, 0, 0, 0, 0, 0, 0, 0, 0, 0, 0, 0, 0⟩]).mer ≠
      some ((500 : ℚ) / 100) := by
  constructor
  · norm_num [aggregatePeriodMetrics, sumBy]
  · norm_num [aggregatePeriodMetrics, sumBy]

/-- C8 (amended): for every non-empty record sequence with strictly positive
total revenue and total spend, the mer field equals aggregate spend divided by
aggregate revenue, times 100 - the inverse percentage of the claimed
revenue-over-spend ratio. -/
theorem aggregatePeriodMetrics_mer_spec (l : List MarketingDailyMetrics) (hne : l ≠ [])
    (hrev : 0 < sumBy l (fun d => d.orderRevenue))
    (hspend : 0 < sumBy l (fun d => d.spend)) :
    (aggregatePeriodMetrics l).mer =
      some (sumBy l (fun d => d.spend) / sumBy l (fun d => d.orderRevenue) * 100) := by
  unfold aggregatePeriodMetrics
  rw [if_neg (by simpa [List.isEmpty_iff] using hne)]
  dsimp only
  rw [if_pos hrev]

/-- C8 (witness): `aggregatePeriodMetrics_mer_spec` at the one-day list with
revenue 500 and spend 100. -/
theorem aggregatePeriodMetrics_mer_spec_witness :
    ([(⟨"2025-01-01", 500, 100, 0, 0, 0, 0, 0, 0, 0, 0, 0, 0, 0, 0, 0, 0⟩ :
        MarketingDailyMetrics)] ≠ []) ∧
    (aggregatePeriodMetrics
      [⟨"2025-01-01", 500, 100, 0, 0, 0, 0, 0, 0, 0, 0, 0, 0, 0, 0, 0, 0⟩]).mer =
      some (sumBy [⟨"2025-01-01", 500, 100, 0, 0, 0, 0, 0, 0, 0, 0, 0, 0, 0, 0, 0, 0⟩]
          (fun d => d.spend) /
        sumBy [⟨"2025-01-01", 500, 100, 0, 0, 0, 0, 0, 0, 0, 0, 0, 0, 0, 0, 0, 0⟩]
          (fun d => d.orderRevenue) * 100) :=
  ⟨by simp, aggregatePeriodMetrics_mer_spec _ (by simp) (by norm_num [sumBy])
    (by norm_num [sumBy])⟩



/-- C7 (counterexample): the claim asserts the overall return ratio equals
total revenue divided by total spend for every pair of record lists, but on a
day with revenue 100 and spend -50 (a refund- or correction-dominated day the
sheet can carry) the guard `spendNOK > 0` of the code makes the builder
return 0 while the claimed quotient is -2. -/
theorem getCountryMetrics_negSpend_counterexample :
    (getCountryMetrics ⟨"NO", "Norway", "d", "NOK", "f", 1, 0.25⟩
      [⟨"2025-01-01", 100, -50, 1, 0, 0, 0, 0, 0, 0, 0, 0, 0, 0, 0, 0, 0⟩] [] false).roas = 0 ∧
    sumBy [⟨"2025-01-01", 100, -50, 1, 0, 0, 0, 0, 0, 0, 0, 0, 0, 0, 0, 0, 0⟩]
        (fun d => d.orderRevenue) /
      sumBy [⟨"2025-01-01", 100, -50, 1, 0, 0, 0, 0, 0, 0, 0, 0, 0, 0, 0, 0, 0⟩]
        (fun d => d.spend) = -2 ∧
    (getCountryMetrics ⟨"NO", "Norway", "d", "NOK", "f", 1, 0.25⟩
      [⟨"2025-01-01", 100, -50, 1, 0, 0, 0, 0, 0, 0, 0, 0, 0, 0, 0, 0, 0⟩] [] false).roas ≠
      sumBy [⟨"2025-01-01", 100, -50, 1, 0, 0, 0, 0, 0, 0, 0, 0, 0, 0, 0, 0, 0⟩]
          (fun d => d.orderRevenue) /
        sumBy [⟨"2025-01-01", 100, -50, 1, 0, 0, 0, 0, 0, 0, 0, 0, 0, 0, 0, 0, 0⟩]
          (fun d => d.spend) := by
  have h1 : (getCountryMetrics ⟨"NO", "Norway", "d", "NOK", "f", 1, 0.25⟩
      [⟨"2025-01-01", 100, -50, 1, 0, 0, 0, 0, 0, 0, 0, 0, 0, 0, 0, 0, 0⟩] [] false).roas = 0 := by
    norm_num [getCountryMetrics, aggregatePeriodMetrics, sumBy]
  have h2 : sumBy [⟨"2025-01-01", 100, -50, 1, 0, 0, 0, 0, 0, 0, 0, 0, 0, 0, 0, 0, 0⟩]
        (fun d => d.orderRevenue) /
      sumBy [⟨"2025-01-01", 100, -50, 1, 0, 0, 0, 0, 0, 0, 0, 0, 0, 0, 0, 0, 0⟩]
        (fun d => d.spend) = -2 := by
    norm_num [sumBy]
  exact ⟨h1, h2, by rw [h1, h2]; norm_num⟩

/-- C7 (amended): for every entity with a positive currency multiplier, the
country metrics builder returns an overall return ratio of revenue / spend
and a new-customer return ratio of total new-customer revenue / spend (the
NOK conversions cancel) when the period total spend is strictly positive;
when the total spend is zero or negative, both ratios are 0 - not null - as
the code guards on strictly positive converted spend. The year-over-year
revenue baseline is non-null exactly when the prior period revenue is
strictly positive, in which case it is that prior revenue in the reporting
currency. -/
theorem getCountryMetrics_spec (shop : Shop) (cur yoy : List MarketingDailyMetrics) (b : Bool)
    (hrate : 0 < shop.exchangeRateToNOK) :
    (0 < sumBy cur (fun d => d.spend) →
      (getCountryMetrics shop cur yoy b).roas =
        sumBy cur (fun d => d.orderRevenue) / sumBy cur (fun d => d.spend) ∧
      (getCountryMetrics shop cur yoy b).ncRoas =
        (sumBy cur (fun d => d.metaPixelNcRevenue) + sumBy cur (fun d => d.googlePixelNcRevenue) +
          sumBy cur (fun d => d.tiktokPixelNcRevenue)) / sumBy cur (fun d => d.spend)) ∧
    (sumBy cur (fun d => d.spend) ≤ 0 →
      (getCountryMetrics shop cur yoy b).roas = 0 ∧
      (getCountryMetrics shop cur yoy b).ncRoas = 0) ∧
    ((getCountryMetrics shop cur yoy b).revenueYoY ≠ none ↔
      0 < sumBy yoy (fun d => d.orderRevenue)) ∧
    (0 < sumBy yoy (fun d => d.orderRevenue) →
      (getCountryMetrics shop cur yoy b).revenueYoY =
        some (sumBy yoy (fun d => d.orderRevenue) * shop.exchangeRateToNOK)) := by
  obtain ⟨hrev, hspend, hm, hg, ht⟩ := aggregate_fields cur
  have hyrev := (aggregate_fields yoy).1
  have hre : shop.exchangeRateToNOK ≠ 0 := ne_of_gt hrate
  unfold getCountryMetrics
  simp only [hrev, hspend, hm, hg, ht, hyrev]
  refine ⟨?_, ?_, ?_, ?_⟩
  · intro hpos
    have hcond : 0 < sumBy cur (fun d => d.spend) * shop.exchangeRateToNOK :=
      mul_pos hpos hrate
    rw [if_pos hcond, if_pos hcond]
    constructor
    · rw [mul_div_mul_right _ _ hre]
    · rw [mul_div_mul_right _ _ hre]
  · intro hle
    have hcond : ¬ 0 < sumBy cur (fun d => d.spend) * shop.exchangeRateToNOK := by
      intro h
      nlinarith
    rw [if_neg hcond, if_neg hcond]
    exact ⟨rfl, rfl⟩
  · constructor
    · intro hne
      by_contra hle
      rw [if_neg] at hne
      · exact hne rfl
      · intro hpos
        exact hle (by nlinarith)
    · intro hpos
      rw [if_pos (mul_pos hpos hrate)]
      simp
  · intro hpos
    rw [if_pos (mul_pos hpos hrate)]



/-- C7 (witness): the positive-spend clause of `getCountryMetrics_spec` at a
concrete shop and one-day period. -/
theorem getCountryMetrics_spec_witness :
    (0 : ℚ) < (⟨"NO", "Norway", "d", "NOK", "f", 2, 0.25⟩ : Shop).exchangeRateToNOK ∧
    (0 : ℚ) < sumBy [⟨"2025-01-01", 1000, 100, 10, 4, 40, 300, 200, 80, 60, 100, 50, 20, 0, 0, 0, 0⟩]
      (fun d => d.spend) ∧
    (getCountryMetrics ⟨"NO", "Norway", "d", "NOK", "f", 2, 0.25⟩
      [⟨"2025-01-01", 1000, 100, 10, 4, 40, 300, 200, 80, 60, 100, 50, 20, 0, 0, 0, 0⟩] [] false).roas =
      sumBy [⟨"2025-01-01", 1000, 100, 10, 4, 40, 300, 200, 80, 60, 100, 50, 20, 0, 0, 0, 0⟩]
          (fun d => d.orderRevenue) /
        sumBy [⟨"2025-01-01", 1000, 100, 10, 4, 40, 300, 200, 80, 60, 100, 50, 20, 0, 0, 0, 0⟩]
          (fun d => d.spend) :=
  ⟨by norm_num, by norm_num [sumBy],
    ((getCountryMetrics_spec ⟨"NO", "Norway", "d", "NOK", "f", 2, 0.25⟩ _ [] false
      (by norm_num)).1 (by norm_num [sumBy])).1⟩

/-- The per-record transform of the code coincides with the specified one. -/
theorem vatCorrectDay_eq_spec (vatRate : ℚ) (day : MarketingDailyMetrics) :
    vatCorrectDay (1 + vatRate) day = vatSpecDay vatRate day := rfl

/-- C9: for every data map and every entity configuration with pairwise
distinct shop codes, the VAT pass maps each entry of the data map by the shop
found for its code: unchanged when no shop matches or the shop has vatRate 0,
otherwise with all ten VAT-inclusive revenue fields of each daily record
divided by `1 + vatRate` and every other field unchanged (see `vatSpecDay`).
A VAT-inclusive revenue of 125 at rate 0.25 normalizes to exactly 100. -/
theorem applyVatCorrection_spec (shops : List Shop) (allData : AllData)
    (hnd : (shops.map (fun s => s.code)).Nodup) :
    (applyVatCorrection shops allData = allData.map (fun e =>
      match shops.find? (fun s => decide (s.code = e.1)) with
      | none => e
      | some s =>
        if s.vatRate = 0 then e
        else (e.1, e.2.map (vatSpecDay s.vatRate)))) ∧
    (vatCorrectDay (1 + 0.25)
      ⟨"2025-01-01", 125, 50, 3, 1, 10, 125, 125, 125, 10, 125, 125, 125, 10, 125, 125, 125⟩ :
        MarketingDailyMetrics).orderRevenue = 100 := by
  refine ⟨?_, by norm_num [vatCorrectDay]⟩
  induction shops generalizing allData with
  | nil =>
    simp [applyVatCorrection]
  | cons s rest ih =>
    simp only [List.map_cons, List.nodup_cons, List.mem_map] at hnd
    obtain ⟨hnotin, hndrest⟩ := hnd
    have hstep : applyVatCorrection (s :: rest) allData =
        applyVatCorrection rest (if 1 + s.vatRate = 1 then allData
          else allData.map (fun e =>
            if e.1 = s.code then (e.1, e.2.map (vatCorrectDay (1 + s.vatRate))) else e)) := rfl
    rw [hstep]
    have hfindrest : ∀ e : String × List MarketingDailyMetrics, s.code = e.1 →
        rest.find? (fun x => decide (x.code = e.1)) = none := by
      intro e hc
      rw [List.find?_eq_none]
      intro x hx
      simp only [decide_eq_true_eq]
      intro hxc
      exact hnotin ⟨x, hx, by rw [hxc, ← hc]⟩
    by_cases hv : s.vatRate = 0
    · rw [if_pos (by rw [hv]; ring)]
      rw [ih allData hndrest]
      apply List.map_congr_left
      intro e _
      simp only [List.find?_cons]
      by_cases hc : s.code = e.1
      · rw [decide_eq_true hc, hfindrest e hc]
        simp [hv]
      · rw [decide_eq_false hc]
    · rw [if_neg (fun h => hv (by linarith))]
      rw [ih _ hndrest, List.map_map]
      apply List.map_congr_left
      intro e _
      simp only [Function.comp_apply, List.find?_cons]
      by_cases hc : e.1 = s.code
      · rw [if_pos hc]
        rw [decide_eq_true hc.symm]
        have hnone := hfindrest e hc.symm
        simp only [hnone]
        simp only [hv, if_neg hv]
        rw [show (e.1, e.2.map (vatCorrectDay (1 + s.vatRate))).1 = e.1 from rfl] at *
        constructor
      · rw [if_neg hc]
        rw [decide_eq_false (fun h => hc h.symm)]




/-- C9 (witness): `applyVatCorrection_spec` at the configured `SHOPS` list,
whose codes are pairwise distinct. -/
theorem applyVatCorrection_spec_witness :
    (SHOPS.map (fun s => s.code)).Nodup ∧
    (vatCorrectDay (1 + 0.25)
      ⟨"2025-01-01", 125, 50, 3, 1, 10, 125, 125, 125, 10, 125, 125, 125, 10, 125, 125, 125⟩ :
        MarketingDailyMetrics).orderRevenue = 100 :=
  ⟨by decide, (applyVatCorrection_spec SHOPS [] (by decide)).2⟩



/-- In a list with pairwise distinct keys, searching for the key of a member
finds that member. -/
theorem find?_key_eq {α β : Type} [DecidableEq β] (f : α → β) (l : List α)
    (hnd : (l.map f).Nodup) (a : α) (ha : a ∈ l) :
    l.find? (fun x => decide (f x = f a)) = some a := by
  induction l with
  | nil => cases ha
  | cons b t ih =>
    simp only [List.map_cons, List.nodup_cons, List.mem_map] at hnd
    obtain ⟨hb, ht⟩ := hnd
    rcases List.mem_cons.mp ha with rfl | hat
    · rw [List.find?_cons, decide_eq_true rfl]
    · rw [List.find?_cons]
      have hne : f b ≠ f a := fun h => hb ⟨a, hat, h.symm⟩
      rw [decide_eq_false hne]
      exact ih ht hat

/-- Mapping a left inverse over a filterMap yields a sublist of the input. -/
theorem filterMap_map_sublist {α β : Type} (F : α → Option β) (g : β → α)
    (h : ∀ x r, F x = some r → g r = x) (l : List α) : ((l.filterMap F).map g).Sublist l := by
  induction l with
  | nil => simp
  | cons a t ih =>
    rw [List.filterMap_cons]
    cases hF : F a with
    | none => exact ih.cons a
    | some r =>
      rw [List.map_cons, h a r hF]
      exact ih.cons₂ a

/-- The with-spend codes are a sublist of the data-map keys. -/
theorem filterCountriesWithSpend_sublist (allData : AllData) (s e : String) :
    (filterCountriesWithSpend allData s e).Sublist (allData.map Prod.fst) := by
  unfold filterCountriesWithSpend
  induction allData with
  | nil => simp
  | cons a t ih =>
    rw [List.filterMap_cons, List.map_cons]
    split_ifs with h
    · exact ih.cons₂ a.1
    · exact ih.cons a.1

/-- Membership in `filterCountriesWithSpend`: some entry of the data map has
this code and strictly positive period spend. -/
theorem mem_filterCountriesWithSpend (allData : AllData) (s e : String) (code : String) :
    code ∈ filterCountriesWithSpend allData s e ↔
      ∃ entry ∈ allData, entry.1 = code ∧
        0 < ((getMetricsForPeriod entry.2 s e).map (fun d => d.spend)).sum := by
  unfold filterCountriesWithSpend
  rw [List.mem_filterMap]
  constructor
  · rintro ⟨entry, hmem, hsome⟩
    by_cases h : 0 < ((getMetricsForPeriod entry.2 s e).map (fun d => d.spend)).sum
    · rw [if_pos h, Option.some.injEq] at hsome
      exact ⟨entry, hmem, hsome, h⟩
    · rw [if_neg h] at hsome
      cases hsome
  · rintro ⟨entry, hmem, hkey, hpos⟩
    exact ⟨entry, hmem, by rw [if_pos hpos, hkey]⟩

/-- The country record built for a shop carries that shop. -/
theorem getCountryMetricsShop (shop : Shop) (cur yoy : List MarketingDailyMetrics) (b : Bool) :
    (getCountryMetrics shop cur yoy b).shop = shop := rfl

/-- C10: with pairwise distinct data-map keys, a record is in the
`getAllCountryMetrics` list exactly when its shop is configured, its summed
period spend is strictly positive and it is the country record built from
that shop data (so there is one record per such shop and no others, as the
output shop codes are pairwise distinct), and the list is sorted in
non-increasing order of reporting-currency revenue. -/
theorem getAllCountryMetrics_spec (allData : AllData) (s e ys ye : String) (inc : Bool)
    (hnd : (allData.map Prod.fst).Nodup) :
    (∀ r, r ∈ getAllCountryMetrics allData s e ys ye inc ↔
      (r.shop ∈ SHOPS ∧ 0 < periodSpend allData r.shop.code s e ∧
        r = getCountryMetrics r.shop (getMetricsForPeriod (shopData allData r.shop.code) s e)
          (getMetricsForPeriod (shopData allData r.shop.code) ys ye) inc)) ∧
    ((getAllCountryMetrics allData s e ys ye inc).map (fun r => r.shop.code)).Nodup ∧
    (getAllCountryMetrics allData s e ys ye inc).Pairwise (fun a b => b.revenue ≤ a.revenue) := by
  have hShopsNd : (SHOPS.map (fun x => x.code)).Nodup := by decide
  have hbuild : ∀ code r, buildCountry allData s e ys ye inc code = some r →
      r.shop ∈ SHOPS ∧ r.shop.code = code ∧
      r = getCountryMetrics r.shop (getMetricsForPeriod (shopData allData code) s e)
        (getMetricsForPeriod (shopData allData code) ys ye) inc := by
    intro code r hsome
    unfold buildCountry at hsome
    cases hfs : SHOPS.find? (fun x => decide (x.code = code)) with
    | none => rw [hfs] at hsome; cases hsome
    | some shop =>
      rw [hfs] at hsome
      cases hfe : allData.find? (fun x => decide (x.1 = code)) with
      | none => rw [hfe] at hsome; cases hsome
      | some entry =>
        rw [hfe, Option.some.injEq] at hsome
        have hshopmem : shop ∈ SHOPS := List.mem_of_find?_eq_some hfs
        have hshopcode : shop.code = code := by
          have := List.find?_some hfs
          simpa using this
        have hdata : shopData allData code = entry.2 := by
          unfold shopData; rw [hfe]; rfl
        subst hsome
        rw [getCountryMetricsShop]
        exact ⟨hshopmem, hshopcode, by rw [hdata]⟩
  have hmempre : ∀ r, r ∈ (filterCountriesWithSpend allData s e).filterMap
      (buildCountry allData s e ys ye inc) ↔
      (r.shop ∈ SHOPS ∧ 0 < periodSpend allData r.shop.code s e ∧
        r = getCountryMetrics r.shop (getMetricsForPeriod (shopData allData r.shop.code) s e)
          (getMetricsForPeriod (shopData allData r.shop.code) ys ye) inc) := by
    intro r
    rw [List.mem_filterMap]
    constructor
    · rintro ⟨code, hcode, hsome⟩
      obtain ⟨hshopmem, hshopcode, hr⟩ := hbuild code r hsome
      obtain ⟨entry, hentrymem, hkey, hpos⟩ := (mem_filterCountriesWithSpend _ _ _ _).mp hcode
      have hfind : allData.find? (fun x => decide (x.1 = code)) = some entry := by
        have := find?_key_eq Prod.fst allData hnd entry hentrymem
        rw [hkey] at this
        exact this
      have hdata : shopData allData code = entry.2 := by
        unfold shopData; rw [hfind]; rfl
      refine ⟨hshopmem, ?_, by rw [hshopcode]; exact hr⟩
      rw [hshopcode]
      unfold periodSpend
      rw [hdata]
      exact hpos
    · rintro ⟨hshopmem, hpos, hr⟩
      cases hfind : allData.find? (fun x => decide (x.1 = r.shop.code)) with
      | none =>
        exfalso
        unfold periodSpend shopData at hpos
        rw [hfind] at hpos
        simp [getMetricsForPeriod] at hpos
      | some entry =>
        have hentrymem : entry ∈ allData := List.mem_of_find?_eq_some hfind
        have hkey : entry.1 = r.shop.code := by
          have := List.find?_some hfind
          simpa using this
        have hdata : shopData allData r.shop.code = entry.2 := by
          unfold shopData; rw [hfind]; rfl
        refine ⟨r.shop.code, ?_, ?_⟩
        · rw [mem_filterCountriesWithSpend]
          refine ⟨entry, hentrymem, hkey, ?_⟩
          unfold periodSpend at hpos
          rw [hdata] at hpos
          exact hpos
        · unfold buildCountry
          have hfshops : SHOPS.find? (fun x => decide (x.code = r.shop.code)) = some r.shop :=
            find?_key_eq (fun x => x.code) SHOPS hShopsNd r.shop hshopmem
          rw [hfshops, hfind]
          show some (getCountryMetrics r.shop (getMetricsForPeriod entry.2 s e)
            (getMetricsForPeriod entry.2 ys ye) inc) = some r
          rw [← hdata, ← hr]
  have hperm := List.mergeSort_perm ((filterCountriesWithSpend allData s e).filterMap
    (buildCountry allData s e ys ye inc)) (fun a b => decide (b.revenue ≤ a.revenue))
  refine ⟨?_, ?_, ?_⟩
  · intro r
    unfold getAllCountryMetrics
    rw [List.mem_mergeSort]
    exact hmempre r
  · have hpre : (((filterCountriesWithSpend allData s e).filterMap
        (buildCountry allData s e ys ye inc)).map (fun r => r.shop.code)).Nodup := by
      have hsub1 := filterMap_map_sublist (buildCountry allData s e ys ye inc)
        (fun r => r.shop.code) (fun x r h => (hbuild x r h).2.1)
        (filterCountriesWithSpend allData s e)
      have hsub2 := filterCountriesWithSpend_sublist allData s e
      exact ((hnd.sublist hsub2).sublist hsub1)
    unfold getAllCountryMetrics
    exact (List.Perm.nodup_iff (hperm.map (fun r => r.shop.code))).mpr hpre
  · unfold getAllCountryMetrics
    have hsorted := @List.sorted_mergeSort CountryMarketingMetrics
      (fun a b => decide (b.revenue ≤ a.revenue))
      (fun a b c hab hbc => by
        simp only [decide_eq_true_eq] at *
        exact le_trans hbc hab)
      (fun a b => by
        simp only [Bool.or_eq_true, decide_eq_true_eq]
        exact le_total b.revenue a.revenue)
      ((filterCountriesWithSpend allData s e).filterMap (buildCountry allData s e ys ye inc))
    exact hsorted.imp (fun h => by simpa using h)


/-- C10 (witness): `getAllCountryMetrics_spec` at a one-shop data map. -/
theorem getAllCountryMetrics_spec_witness :
    (([("NO", [⟨"2025-01-05", 1000, 100, 10, 4, 100, 500, 400, 200, 0, 0, 0, 0, 0, 0, 0, 0⟩])] :
      AllData).map Prod.fst).Nodup ∧
    (getAllCountryMetrics
      [("NO", [⟨"2025-01-05", 1000, 100, 10, 4, 100, 500, 400, 200, 0, 0, 0, 0, 0, 0, 0, 0⟩])]
      "2025-01-01" "2025-01-31" "2024-01-01" "2024-01-31" false).Pairwise
      (fun a b => b.revenue ≤ a.revenue) :=
  ⟨by decide, (getAllCountryMetrics_spec _ "2025-01-01" "2025-01-31" "2024-01-01" "2024-01-31"
    false (by decide)).2.2⟩

end MarketingBot
